import Mathlib

/-!
# WeatherApp proxy: TTL cache, forwarding handler and API-key gate

A shallow embedding of `weather-proxy/cache.go`, `weather-proxy/proxy.go` and
`weather-proxy/auth.go`.

Modelling conventions

* A Go `map[K]V` is an association list with pairwise distinct keys
  (`AList`).  Go leaves the iteration order of a map unspecified, so the two
  loops that range over a map (`cleanupExpired`, the header copy of
  `ServeHTTP`) are functions of the order in which the entries are visited,
  and the results about them hold for every order.
* A Go `string` is a Lean `String`, a sequence of characters; the string
  operations the program uses (concatenation, comparison, prefix and
  substring tests against ASCII literals) act on it as they do on the bytes
  of a UTF-8 string.
* `time.Time` and `time.Duration` are integers counting nanoseconds;
  `time.Now()` is an explicit argument of every operation that reads the
  clock, `t.Add(d)` is `t + d` and `t.After(u)` is `u < t`.
* The mutex of `Cache` only serialises the operations; each operation is a
  function from the store before to the store after.
* `log.Printf` calls have no effect on the state or the response and are
  left out.
-/

namespace WeatherProxy

/-! ## cache.go -/

/-- A Go byte slice; `nil` is the empty list. -/
abbrev Bytes := List UInt8

/-- Nanoseconds on the clock read by `time.Now()`. -/
abbrev Time := Int

/-- A `time.Duration`: a signed count of nanoseconds. -/
abbrev Duration := Int

/-- CacheEntry represents a cached response with expiration. -/
structure CacheEntry where
  Data : Bytes
  ExpiresAt : Time
  deriving DecidableEq

/-- Cache: the `entries` map (the mutex carries no data). -/
structure Cache where
  entries : AList (fun _ : String => CacheEntry)
  deriving DecidableEq

/-- The map created by `NewCache`. -/
def NewCache : Cache := ⟨∅⟩

/-- The comparison `now.After(entry.ExpiresAt)` of `Get` and `cleanupExpired`. -/
def expired (now : Time) (entry : CacheEntry) : Bool := decide (entry.ExpiresAt < now)

/-- Get retrieves a cached entry if it exists and has not expired.  The result
is the returned pair together with the store after the call. -/
def Cache.Get (c : Cache) (now : Time) (key : String) : (Bytes × Bool) × Cache :=
  match c.entries.lookup key with
  | none => (([], false), c)
  | some entry =>
    if expired now entry then (([], false), c)
    else ((entry.Data, true), c)

/-- Set stores a value in the cache with the specified TTL. -/
def Cache.Set (c : Cache) (now : Time) (key : String) (data : Bytes) (ttl : Duration) : Cache :=
  ⟨c.entries.insert key { Data := data, ExpiresAt := now + ttl }⟩

/-- One step of the inner loop of `cleanupExpired`: the entry under visit is
deleted from the map when it has expired. -/
def sweepStep (now : Time) (m : AList (fun _ : String => CacheEntry))
    (kv : (_ : String) × CacheEntry) : AList (fun _ : String => CacheEntry) :=
  if expired now kv.2 then m.erase kv.1 else m

/-- The inner loop of `cleanupExpired`, visiting the entries in the given
order. -/
def sweepOver (order : List ((_ : String) × CacheEntry)) (now : Time) (c : Cache) : Cache :=
  ⟨order.foldl (sweepStep now) c.entries⟩

/-- One tick of `cleanupExpired`: the loop body run on the store at time
`now`, visiting the entries in the order the store lists them. -/
def Cache.cleanupPass (c : Cache) (now : Time) : Cache :=
  sweepOver c.entries.entries now c

/-- MakeCacheKey creates a cache key from endpoint and location. -/
def MakeCacheKey (endpoint lat lon : String) : String :=
  endpoint ++ ":" ++ lat ++ ":" ++ lon

/-! ## net/http and strings: the library operations the handlers call -/

/-- The Go conversion `[]byte(s)`: the UTF-8 encoding of a string. -/
def utf8 (s : String) : Bytes := s.data.flatMap String.utf8EncodeChar

/-- The bytes `textproto` accepts in a header field name (RFC 7230 token
characters): letters, digits and the punctuation listed. -/
def validHeaderFieldByte (c : Char) : Bool :=
  c.isAlphanum || c ∈ "!#$%&*+-.^_|~".data || c = Char.ofNat 39 || c = Char.ofNat 96

/-- The rewriting loop of `textproto.canonicalMIMEHeaderKey`: the first letter
and every letter after a dash in upper case, the others in lower case. -/
def canonLoop : Bool → List Char → List Char
  | _, [] => []
  | upper, c :: cs =>
    let c1 := if upper && c.isLower then c.toUpper
              else if !upper && c.isUpper then c.toLower else c
    c1 :: canonLoop (c1 == '-') cs

/-- The function `textproto.CanonicalMIMEHeaderKey`: a key holding a byte that
is not valid in a field name is returned unchanged, any other key is
rewritten by `canonLoop`. -/
def CanonicalMIMEHeaderKey (s : String) : String :=
  if s.data.all validHeaderFieldByte then ⟨canonLoop true s.data⟩ else s

/-- The type `http.Header`, a `map[string][]string`. -/
abbrev Header := AList (fun _ : String => List String)

/-- The Go index expression `h[key]`: the values stored under exactly `key`,
none when the key is absent. -/
def Header.index (h : Header) (key : String) : List String :=
  (h.lookup key).getD []

/-- The method `Header.Add`: appends to the values of the canonical key. -/
def Header.Add (h : Header) (key value : String) : Header :=
  h.insert (CanonicalMIMEHeaderKey key) (h.index (CanonicalMIMEHeaderKey key) ++ [value])

/-- The method `Header.Set`: replaces the values of the canonical key. -/
def Header.Set (h : Header) (key value : String) : Header :=
  h.insert (CanonicalMIMEHeaderKey key) [value]

/-- The method `Header.Get`: the first value of the canonical key, or `""`. -/
def Header.Get (h : Header) (key : String) : String :=
  (h.index (CanonicalMIMEHeaderKey key)).headD ""

/-- The method `Header.Values`: all values of the canonical key. -/
def Header.Values (h : Header) (key : String) : List String :=
  h.index (CanonicalMIMEHeaderKey key)

/-- What a handler has handed to its `http.ResponseWriter`: the status code
(that of `WriteHeader`, or 200 when `Write` comes first), the header map and
the bytes passed to `Write`. -/
structure Response where
  StatusCode : Nat
  Header : Header
  Body : Bytes
  deriving DecidableEq

/-- The test `checkWriteHeaderCode` of `net/http` passes: `WriteHeader` panics
for a status code below 100 or above 999. -/
def validWriteHeaderCode (code : Nat) : Bool := decide (100 ≤ code) && decide (code ≤ 999)

/-- The function `http.Error` on a writer whose header map is still empty:
plain-text content type, `nosniff`, the status code, the message and a
newline. -/
def httpError (error : String) (code : Nat) : Response :=
  { StatusCode := code
    Header := (Header.Set ∅ "Content-Type" "text/plain; charset=utf-8").Set
      "X-Content-Type-Options" "nosniff"
    Body := utf8 (error ++ "\n") }

/-- The part of an inbound `*http.Request` the handlers read. -/
structure Request where
  Method : String
  Path : String
  RawQuery : String
  Header : Header
  deriving DecidableEq

/-- The request `ServeHTTP` hands to `p.httpClient.Do`. -/
structure UpstreamRequest where
  Method : String
  URL : String
  Header : Header
  deriving DecidableEq

/-- What `p.httpClient.Do(req)` followed by `io.ReadAll(resp.Body)` yields. -/
inductive UpstreamResult where
  /-- `Do` returned an error (network failure, timeout, no OAuth token). -/
  | transportError
  /-- `Do` returned a response whose body `io.ReadAll` failed to read. -/
  | bodyUnreadable (StatusCode : Nat) (Header : Header)
  /-- `Do` returned a response and its body was read in full. -/
  | response (StatusCode : Nat) (Header : Header) (Body : Bytes)
  deriving DecidableEq

/-- The search of `strings.Contains`: is there a position of `s` at which
`substr` starts? -/
def containsAt (substr : List Char) : List Char → Bool
  | [] => substr.isEmpty
  | c :: cs => substr.isPrefixOf (c :: cs) || containsAt substr cs

/-- The function `strings.TrimPrefix`. -/
def TrimPrefix (s pre : String) : String :=
  if pre.data.isPrefixOf s.data then ⟨s.data.drop pre.data.length⟩ else s

/-! ## proxy.go -/

def Nanosecond : Duration := 1
def Microsecond : Duration := 1000 * Nanosecond
def Millisecond : Duration := 1000 * Microsecond
def Second : Duration := 1000 * Millisecond
def Minute : Duration := 60 * Second
def Hour : Duration := 60 * Minute

def googleWeatherAPIBase : String := "https://weather.googleapis.com/v1"
def currentWeatherTTL : Duration := 15 * Minute
def forecastTTL : Duration := 1 * Hour
def alertsTTL : Duration := 5 * Minute

def MethodGet : String := "GET"
def StatusOK : Nat := 200
def StatusUnauthorized : Nat := 401
def StatusMethodNotAllowed : Nat := 405
def StatusInternalServerError : Nat := 500
def StatusBadGateway : Nat := 502

/-- contains checks if a string contains a substring. -/
def contains (s substr : String) : Bool := containsAt substr.data s.data

/-- getEndpointType determines the type of endpoint from the path. -/
def getEndpointType (path : String) : String :=
  if contains path "/current" then "current"
  else if contains path "/forecast" then "forecast"
  else if contains path "/alerts" then "alerts"
  else "unknown"

/-- getTTLForEndpoint returns the appropriate cache TTL for an endpoint type. -/
def getTTLForEndpoint (endpointType : String) : Duration :=
  if endpointType = "current" then currentWeatherTTL
  else if endpointType = "forecast" then forecastTTL
  else if endpointType = "alerts" then alertsTTL
  else 5 * Minute

/-- ProxyHandler: the handler's collaborators other than the cache, which is
passed as state.  `httpClient` is `p.httpClient.Do` followed by the read of
the body; `newRequest` tells whether `http.NewRequestWithContext` accepts the
target URL. -/
structure ProxyHandler where
  httpClient : UpstreamRequest → UpstreamResult
  newRequest : String → Bool

/-- The two readings of `time.Now()` during one `ServeHTTP`: inside
`cache.Get` and inside `cache.Set`. -/
structure Clock where
  atGet : Time
  atSet : Time

/-- The interactions of one `ServeHTTP` call with the cache and the upstream,
in the order they happen. -/
inductive Event where
  | cacheGet (key : String)
  | upstreamCall (req : UpstreamRequest)
  | cacheSet (key : String) (data : Bytes) (ttl : Duration)
  deriving DecidableEq

/-- The result of one `ServeHTTP` call: the response written (`none` when the
handler panicked before writing one), the cache after the call and the
interactions made. -/
structure Outcome where
  response : Option Response
  cache : Cache
  events : List Event

/-- The path sent upstream: the request path without a leading `/api/weather`. -/
def upstreamPath (r : Request) : String := TrimPrefix r.Path "/api/weather"

/-- The Google Weather API URL of `ServeHTTP`. -/
def targetURL (r : Request) : String :=
  if r.RawQuery ≠ "" then googleWeatherAPIBase ++ upstreamPath r ++ ("?" ++ r.RawQuery)
  else googleWeatherAPIBase ++ upstreamPath r

/-- The cache key of `ServeHTTP`, built from path and query. -/
def cacheKey (r : Request) : String := upstreamPath r ++ "?" ++ r.RawQuery

/-- The header-copy loops of `ServeHTTP`: every value of every visited entry
is added to `dst`, except that entries whose key is in `skip` are passed
over. -/
def copyInto (skip : List String) (dst : Header)
    (order : List ((_ : String) × List String)) : Header :=
  order.foldl (fun acc kv =>
    if kv.1 ∈ skip then acc else kv.2.foldl (fun a value => a.Add kv.1 value) acc) dst

/-- The headers of the upstream request when the inbound entries are visited
in the given order: all but `X-Api-Key` and `Authorization`. -/
def copyHeaders (order : List ((_ : String) × List String)) : Header :=
  copyInto ["X-Api-Key", "Authorization"] ∅ order

/-- The values the header copy gathers under `k`: those of the visited
entries, in order, whose key is not skipped and has canonical form `k`. -/
def gathered (skip : List String) (k : String) (order : List ((_ : String) × List String)) :
    List String :=
  (order.filter
    (fun kv => decide (kv.1 ∉ skip) && decide (CanonicalMIMEHeaderKey kv.1 = k))).flatMap
    (fun kv => kv.2)

/-- The response `ServeHTTP` writes on a cache hit. -/
def hitResponse (cached : Bytes) : Response :=
  { StatusCode := StatusOK
    Header := (Header.Set ∅ "Content-Type" "application/json").Set "X-Cache" "HIT"
    Body := cached }

/-- The request `ServeHTTP` builds on a cache miss. -/
def upstreamRequest (r : Request) : UpstreamRequest :=
  { Method := MethodGet, URL := targetURL r, Header := copyHeaders r.Header.entries }

/-- ServeHTTP handles proxy requests.  The final `w.WriteHeader(resp.StatusCode)`
panics when the upstream status code is not one `WriteHeader` accepts; the
handler has then written no response, after the cache was dealt with. -/
def ProxyHandler.ServeHTTP (p : ProxyHandler) (clock : Clock) (cache : Cache) (r : Request) :
    Outcome :=
  if r.Method ≠ MethodGet then
    ⟨some (httpError "Method not allowed" StatusMethodNotAllowed), cache, []⟩
  else
    let path := upstreamPath r
    let endpointType := getEndpointType path
    let key := cacheKey r
    match cache.Get clock.atGet key with
    | ((cached, true), cache1) =>
      ⟨some (hitResponse cached), cache1, [Event.cacheGet key]⟩
    | ((_, false), cache1) =>
      if p.newRequest (targetURL r) = false then
        ⟨some (httpError "Failed to create request" StatusInternalServerError), cache1,
          [Event.cacheGet key]⟩
      else
        let req := upstreamRequest r
        match p.httpClient req with
        | UpstreamResult.transportError =>
          ⟨some (httpError "Failed to proxy request" StatusBadGateway), cache1,
            [Event.cacheGet key, Event.upstreamCall req]⟩
        | UpstreamResult.bodyUnreadable _ _ =>
          ⟨some (httpError "Failed to read response" StatusInternalServerError), cache1,
            [Event.cacheGet key, Event.upstreamCall req]⟩
        | UpstreamResult.response status header body =>
          let ttl := getTTLForEndpoint endpointType
          let cache2 := if status = StatusOK then cache1.Set clock.atSet key body ttl else cache1
          let events := if status = StatusOK then
              [Event.cacheGet key, Event.upstreamCall req, Event.cacheSet key body ttl]
            else [Event.cacheGet key, Event.upstreamCall req]
          let written : Option Response :=
            if validWriteHeaderCode status then
              some { StatusCode := status
                     Header := (copyInto [] ∅ header.entries).Set "X-Cache" "MISS"
                     Body := body }
            else none
          ⟨written, cache2, events⟩

/-! ## auth.go -/

/-- ErrorResponse represents JSON error response. -/
structure ErrorResponse where
  Error : String
  deriving DecidableEq

/-- The line `json.NewEncoder(w).Encode` writes for an `ErrorResponse` whose
message needs no escaping (both messages of `AuthMiddleware` are such). -/
def ErrorResponse.encode (e : ErrorResponse) : Bytes :=
  utf8 ("\x7b\"error\":\"" ++ e.Error ++ "\"\x7d\n")

/-- The result of one call of the handler `AuthMiddleware` returns: the
response written and the requests passed on to the wrapped handler. -/
structure AuthOutcome where
  response : Response
  nextCalls : List Request
  deriving DecidableEq

/-- The 401 response of `AuthMiddleware` with the given error message. -/
def unauthorized (msg : String) : Response :=
  { StatusCode := StatusUnauthorized
    Header := Header.Set ∅ "Content-Type" "application/json"
    Body := ErrorResponse.encode ⟨msg⟩ }

/-- AuthMiddleware validates the API key from the X-API-Key header;
`expectedKey` is `os.Getenv("PROXY_API_KEY")`, `next` the wrapped handler. -/
def AuthMiddleware (expectedKey : String) (next : Request → Response) (r : Request) :
    AuthOutcome :=
  let apiKey := r.Header.Get "X-API-Key"
  if expectedKey = "" then
    ⟨httpError "Server misconfigured" StatusInternalServerError, []⟩
  else if apiKey = "" then
    ⟨unauthorized "Missing X-API-Key header", []⟩
  else if apiKey ≠ expectedKey then
    ⟨unauthorized "Invalid API key", []⟩
  else
    ⟨next r, [r]⟩

/-! ## Results on the cache -/

theorem Cache.Get_cache (c : Cache) (now : Time) (key : String) : (c.Get now key).2 = c := by
  unfold Cache.Get
  split
  · rfl
  · split <;> rfl

theorem Cache.Get_fst (c : Cache) (now : Time) (key : String) :
    (c.Get now key).1 =
      match c.entries.lookup key with
      | none => ([], false)
      | some e => if e.ExpiresAt < now then ([], false) else (e.Data, true) := by
  unfold Cache.Get expired
  cases c.entries.lookup key with
  | none => rfl
  | some e =>
    by_cases h : e.ExpiresAt < now <;> simp [h]

theorem Cache.lookup_Set_self (c : Cache) (now : Time) (key : String) (data : Bytes)
    (ttl : Duration) :
    (c.Set now key data ttl).entries.lookup key = some ⟨data, now + ttl⟩ := by
  simp [Cache.Set]

theorem Cache.lookup_Set_other (c : Cache) (now : Time) (key : String) (data : Bytes)
    (ttl : Duration) (k : String) (h : k ≠ key) :
    (c.Set now key data ttl).entries.lookup k = c.entries.lookup k := by
  simp [Cache.Set, AList.lookup_insert_ne h]

theorem lookup_foldl_sweepStep (now : Time) (key : String)
    (order : List ((_ : String) × CacheEntry)) :
    ∀ m : AList (fun _ : String => CacheEntry),
      (order.foldl (sweepStep now) m).lookup key =
        if ∃ kv ∈ order, kv.1 = key ∧ expired now kv.2 = true then none else m.lookup key := by
  induction order with
  | nil => intro m; simp
  | cons kv rest ih =>
    intro m
    rw [List.foldl_cons, ih]
    by_cases hrest : ∃ x ∈ rest, x.1 = key ∧ expired now x.2 = true
    · have : ∃ x ∈ kv :: rest, x.1 = key ∧ expired now x.2 = true := by
        obtain ⟨x, hx, hk⟩ := hrest
        exact ⟨x, List.mem_cons_of_mem _ hx, hk⟩
      rw [if_pos hrest, if_pos this]
    · rw [if_neg hrest]
      by_cases hkv : kv.1 = key ∧ expired now kv.2 = true
      · have : ∃ x ∈ kv :: rest, x.1 = key ∧ expired now x.2 = true :=
          ⟨kv, List.mem_cons_self _ _, hkv⟩
        rw [if_pos this]
        simp only [sweepStep, hkv.2, if_true]
        rw [← hkv.1]
        exact AList.lookup_erase _ _
      · have : ¬ ∃ x ∈ kv :: rest, x.1 = key ∧ expired now x.2 = true := by
          rintro ⟨x, hx, hk⟩
          rcases List.mem_cons.mp hx with rfl | hx
          · exact hkv hk
          · exact hrest ⟨x, hx, hk⟩
        rw [if_neg this]
        unfold sweepStep
        by_cases he : expired now kv.2 = true
        · rw [if_pos he]
          have hne : key ≠ kv.1 := fun h => hkv ⟨h.symm, he⟩
          exact AList.lookup_erase_ne hne
        · rw [if_neg he]

theorem lookup_sweepOver (c : Cache) (now : Time) (order : List ((_ : String) × CacheEntry))
    (h : order.Perm c.entries.entries) (key : String) :
    (sweepOver order now c).entries.lookup key =
      (c.entries.lookup key).filter (fun e => decide (¬ e.ExpiresAt < now)) := by
  unfold sweepOver
  simp only
  rw [lookup_foldl_sweepStep]
  cases hl : c.entries.lookup key with
  | none =>
    simp
  | some e =>
    have hmem : (⟨key, e⟩ : (_ : String) × CacheEntry) ∈ order :=
      h.symm.subset (AList.mem_lookup_iff.mp (by rw [hl]; exact rfl))
    by_cases hexp : e.ExpiresAt < now
    · have : ∃ kv ∈ order, kv.1 = key ∧ expired now kv.2 = true :=
        ⟨⟨key, e⟩, hmem, rfl, by simp [expired, hexp]⟩
      rw [if_pos this]
      simp [Option.filter, hexp]
    · have : ¬ ∃ kv ∈ order, kv.1 = key ∧ expired now kv.2 = true := by
        rintro ⟨⟨k, e2⟩, hx, hk, hx2⟩
        simp only at hk
        subst hk
        have h2 : e2 ∈ c.entries.lookup k := AList.mem_lookup_iff.mpr (h.subset hx)
        rw [hl] at h2
        have : e2 = e := (Option.mem_some_iff.mp h2).symm
        subst this
        simp [expired] at hx2
        exact hexp hx2
      rw [if_neg this]
      simp [Option.filter, hexp]

/-- C1 (as amended): for every cache state, clock value, key, payload and
every ttl that is not negative, `Set(key, payload, ttl)` followed by
`Get(key)` at the same clock value returns `(payload, true)`. -/
theorem Set_then_Get (c : Cache) (now : Time) (key : String) (data : Bytes) (ttl : Duration)
    (httl : 0 ≤ ttl) :
    ((c.Set now key data ttl).Get now key).1 = (data, true) := by
  rw [Cache.Get_fst, Cache.lookup_Set_self]
  have : ¬ (now + ttl < now) := not_lt.mpr (le_add_of_nonneg_right httl)
  simp [this]

theorem Set_then_Get_witness :
    ((NewCache.Set 100 "k" [1, 2] 5).Get 100 "k").1 = ([1, 2], true) :=
  Set_then_Get NewCache 100 "k" [1, 2] 5 (by decide)

/-- C1 fails as stated: with the negative ttl `-1`, `Set` followed at once by
`Get` of the same key is a miss, not `(payload, true)`. -/
theorem Set_then_Get_negative_ttl :
    ((NewCache.Set 100 "k" [1, 2] (-1)).Get 100 "k").1 = ([], false) ∧
    ((NewCache.Set 100 "k" [1, 2] (-1)).Get 100 "k").1 ≠ ([1, 2], true) := by
  decide

/-- C2: `Get(key)` at clock value `now` returns `(data, true)` exactly when the
store holds an entry for `key` whose `ExpiresAt` has not passed and whose
payload is `data`; it returns `(nil, false)` whenever the stored entry has
expired (though still present in the store) or no entry is stored; and the
store after `Get` is the store before. -/
theorem Get_live_entry_only (c : Cache) (now : Time) (key : String) :
    (∀ data : Bytes, (c.Get now key).1 = (data, true) ↔
      ∃ e, c.entries.lookup key = some e ∧ ¬ (now > e.ExpiresAt) ∧ e.Data = data) ∧
    (∀ e, c.entries.lookup key = some e → now > e.ExpiresAt →
      (c.Get now key).1 = ([], false)) ∧
    (c.entries.lookup key = none → (c.Get now key).1 = ([], false)) ∧
    (c.Get now key).2 = c := by
  refine ⟨?_, ?_, ?_, Cache.Get_cache c now key⟩
  · intro data
    rw [Cache.Get_fst]
    cases hl : c.entries.lookup key with
    | none => simp
    | some e =>
      by_cases h : e.ExpiresAt < now
      · simp [h]
      · simp [h, not_lt.mp h]
  · intro e hl hexp
    rw [Cache.Get_fst, hl]
    have : e.ExpiresAt < now := hexp
    simp [this]
  · intro hl
    rw [Cache.Get_fst, hl]

/-- C7: one pass of the sweep at clock value `now`, in whatever order the
entries are visited (in particular in the order of `cleanupPass`), leaves a
store whose entry under each key is the entry the previous store held under
that key if its `ExpiresAt` has not passed (payload and expiry unchanged),
and no entry otherwise. -/
theorem sweep_keeps_exactly_live (c : Cache) (now : Time)
    (order : List ((_ : String) × CacheEntry)) (h : order.Perm c.entries.entries) :
    (∀ key : String, (sweepOver order now c).entries.lookup key =
      (c.entries.lookup key).filter (fun e => decide (¬ (now > e.ExpiresAt)))) ∧
    (∀ key : String, (c.cleanupPass now).entries.lookup key =
      (c.entries.lookup key).filter (fun e => decide (¬ (now > e.ExpiresAt)))) :=
  ⟨fun key => lookup_sweepOver c now order h key,
    fun key => lookup_sweepOver c now c.entries.entries (List.Perm.refl _) key⟩

theorem sweep_keeps_exactly_live_witness :
    (((NewCache.Set 10 "k" [1, 2] 5).Set 10 "j" [3] 9).cleanupPass 16).entries.lookup "j" =
      ((((NewCache.Set 10 "k" [1, 2] 5).Set 10 "j" [3] 9).entries.lookup "j").filter
        (fun e => decide (¬ (16 > e.ExpiresAt)))) :=
  (sweep_keeps_exactly_live ((NewCache.Set 10 "k" [1, 2] 5).Set 10 "j" [3] 9) 16 _
    (List.Perm.refl _)).2 "j"

/-! ## Results on the endpoint category and the cache key -/

theorem containsAt_iff_substring (substr : List Char) :
    ∀ s : List Char, containsAt substr s = true ↔ substr <:+: s := by
  intro s
  induction s with
  | nil =>
    simp [containsAt, List.isEmpty_iff]
  | cons c cs ih =>
    rw [containsAt, Bool.or_eq_true, ih, List.infix_cons_iff, List.isPrefixOf_iff_prefix]

theorem contains_iff_substring (s substr : String) :
    contains s substr = true ↔ substr.data <:+: s.data :=
  containsAt_iff_substring substr.data s.data

theorem append_sep_inj (sep : Char) :
    ∀ (l1 l2 q1 q2 : List Char), sep ∉ l1 → sep ∉ l2 →
      l1 ++ sep :: q1 = l2 ++ sep :: q2 → l1 = l2 ∧ q1 = q2 := by
  intro l1
  induction l1 with
  | nil =>
    intro l2 q1 q2 _ h2 heq
    cases l2 with
    | nil => simpa using heq
    | cons b l2 =>
      simp only [List.nil_append, List.cons_append, List.cons.injEq] at heq
      exact absurd (heq.1 ▸ List.mem_cons_self _ _) h2
  | cons a l1 ih =>
    intro l2 q1 q2 h1 h2 heq
    cases l2 with
    | nil =>
      simp only [List.nil_append, List.cons_append, List.cons.injEq] at heq
      exact absurd (heq.1 ▸ List.mem_cons_self _ _) h1
    | cons b l2 =>
      simp only [List.cons_append, List.cons.injEq] at heq
      obtain ⟨hl, hq⟩ := ih l2 q1 q2 (fun h => h1 (List.mem_cons_of_mem _ h))
        (fun h => h2 (List.mem_cons_of_mem _ h)) heq.2
      exact ⟨by rw [heq.1, hl], hq⟩

theorem cacheKey_data (r : Request) :
    (cacheKey r).data = (upstreamPath r).data ++ '?' :: r.RawQuery.data := by
  simp [cacheKey, String.data_append]

/-- C9: `getEndpointType` is the ordered substring test: "current" when the
path contains "/current", else "forecast" when it contains "/forecast", else
"alerts" when it contains "/alerts", else "unknown"; so the result is one of
the four categories, a path matching several gets the earliest, and the
three routed paths are current, forecast and forecast. -/
theorem getEndpointType_first_match (path : String) :
    getEndpointType path =
      (if "/current".data <:+: path.data then "current"
       else if "/forecast".data <:+: path.data then "forecast"
       else if "/alerts".data <:+: path.data then "alerts"
       else "unknown") ∧
    getEndpointType path ∈ ["current", "forecast", "alerts", "unknown"] ∧
    getEndpointType "/v1/alerts/forecast/current" = "current" ∧
    getEndpointType "/v1/alerts/forecast" = "forecast" ∧
    getEndpointType "/v1/currentConditions:lookup" = "current" ∧
    getEndpointType "/v1/forecast/hours:lookup" = "forecast" ∧
    getEndpointType "/v1/forecast/days:lookup" = "forecast" := by
  refine ⟨?_, ?_, by decide, by decide, by decide, by decide, by decide⟩
  · unfold getEndpointType
    simp only [contains_iff_substring]
  · unfold getEndpointType
    split
    · simp
    · split
      · simp
      · split <;> simp

/-- C3 fails as stated: the requests with path `/a?b` and empty query, and
with path `/a` and query `b?`, differ in path and in query and yet get the
same cache key `/a?b?`. -/
theorem cacheKey_collision :
    cacheKey ⟨"GET", "/a?b", "", ∅⟩ = cacheKey ⟨"GET", "/a", "b?", ∅⟩ ∧
    ¬ (cacheKey ⟨"GET", "/a?b", "", ∅⟩ = cacheKey ⟨"GET", "/a", "b?", ∅⟩ ↔
        ("/a?b" : String) = "/a" ∧ ("" : String) = "b?") := by
  decide

/-- C3 (as amended): for every two requests whose upstream paths contain no
`?`, the cache keys are equal if and only if the upstream paths are equal
and the raw query strings are equal. -/
theorem cacheKey_injective (r1 r2 : Request)
    (h1 : '?' ∉ (upstreamPath r1).data) (h2 : '?' ∉ (upstreamPath r2).data) :
    cacheKey r1 = cacheKey r2 ↔
      upstreamPath r1 = upstreamPath r2 ∧ r1.RawQuery = r2.RawQuery := by
  constructor
  · intro h
    have hd : (cacheKey r1).data = (cacheKey r2).data := by rw [h]
    rw [cacheKey_data, cacheKey_data] at hd
    obtain ⟨hp, hq⟩ := append_sep_inj '?' _ _ _ _ h1 h2 hd
    exact ⟨String.ext hp, String.ext hq⟩
  · rintro ⟨hp, hq⟩
    unfold cacheKey
    rw [hp, hq]

theorem cacheKey_injective_witness :
    cacheKey ⟨"GET", "/v1/forecast/days:lookup", "lat=1&lon=2", ∅⟩ =
        cacheKey ⟨"GET", "/v1/forecast/days:lookup", "lon=2&lat=1", ∅⟩ ↔
      upstreamPath ⟨"GET", "/v1/forecast/days:lookup", "lat=1&lon=2", ∅⟩ =
        upstreamPath ⟨"GET", "/v1/forecast/days:lookup", "lon=2&lat=1", ∅⟩ ∧
      ("lat=1&lon=2" : String) = "lon=2&lat=1" :=
  cacheKey_injective ⟨"GET", "/v1/forecast/days:lookup", "lat=1&lon=2", ∅⟩
    ⟨"GET", "/v1/forecast/days:lookup", "lon=2&lat=1", ∅⟩ (by decide) (by decide)

/-! ## Results on `ServeHTTP` -/

theorem Cache.Get_eq (c : Cache) (now : Time) (key : String) :
    c.Get now key = ((c.Get now key).1, c) :=
  Prod.ext rfl (Cache.Get_cache c now key)

theorem Cache.Get_miss_data (c : Cache) (now : Time) (key : String)
    (h : (c.Get now key).1.2 = false) : (c.Get now key).1 = ([], false) := by
  rw [Cache.Get_fst] at h ⊢
  cases hl : c.entries.lookup key with
  | none => rfl
  | some e =>
    rw [hl] at h
    by_cases hexp : e.ExpiresAt < now
    · simp [hexp]
    · simp [hexp] at h

theorem ServeHTTP_hit (p : ProxyHandler) (clock : Clock) (cache : Cache) (r : Request)
    (cached : Bytes) (hm : r.Method = MethodGet)
    (hhit : (cache.Get clock.atGet (cacheKey r)).1 = (cached, true)) :
    (p.ServeHTTP clock cache r).response = some (hitResponse cached) ∧
    (p.ServeHTTP clock cache r).cache = cache ∧
    (p.ServeHTTP clock cache r).events = [Event.cacheGet (cacheKey r)] := by
  have hget : cache.Get clock.atGet (cacheKey r) = ((cached, true), cache) := by
    rw [Cache.Get_eq, hhit]
  have hS : p.ServeHTTP clock cache r =
      ⟨some (hitResponse cached), cache, [Event.cacheGet (cacheKey r)]⟩ := by
    unfold ProxyHandler.ServeHTTP
    simp only [hm, ne_eq, not_true_eq_false, if_false, hget]
  rw [hS]
  exact ⟨rfl, rfl, rfl⟩

theorem ServeHTTP_miss (p : ProxyHandler) (clock : Clock) (cache : Cache) (r : Request)
    (hm : r.Method = MethodGet)
    (hmiss : (cache.Get clock.atGet (cacheKey r)).1.2 = false)
    (hreq : p.newRequest (targetURL r) = true) :
    p.ServeHTTP clock cache r =
      match p.httpClient (upstreamRequest r) with
      | UpstreamResult.transportError =>
        ⟨some (httpError "Failed to proxy request" StatusBadGateway), cache,
          [Event.cacheGet (cacheKey r), Event.upstreamCall (upstreamRequest r)]⟩
      | UpstreamResult.bodyUnreadable _ _ =>
        ⟨some (httpError "Failed to read response" StatusInternalServerError), cache,
          [Event.cacheGet (cacheKey r), Event.upstreamCall (upstreamRequest r)]⟩
      | UpstreamResult.response status header body =>
        ⟨if validWriteHeaderCode status then
            some { StatusCode := status
                   Header := (copyInto [] ∅ header.entries).Set "X-Cache" "MISS"
                   Body := body }
          else none,
          if status = StatusOK then
            cache.Set clock.atSet (cacheKey r) body
              (getTTLForEndpoint (getEndpointType (upstreamPath r)))
          else cache,
          if status = StatusOK then
            [Event.cacheGet (cacheKey r), Event.upstreamCall (upstreamRequest r),
              Event.cacheSet (cacheKey r) body
                (getTTLForEndpoint (getEndpointType (upstreamPath r)))]
          else [Event.cacheGet (cacheKey r), Event.upstreamCall (upstreamRequest r)]⟩ := by
  have hget : cache.Get clock.atGet (cacheKey r) = (([], false), cache) := by
    rw [Cache.Get_eq, Cache.Get_miss_data _ _ _ hmiss]
  unfold ProxyHandler.ServeHTTP
  simp only [hm, ne_eq, not_true_eq_false, if_false, hget, hreq, Bool.true_eq_false]

theorem Cache.Get_miss_later (c : Cache) (now t : Time) (key : String)
    (h : (c.Get now key).1.2 = false) (ht : now ≤ t) : (c.Get t key).1 = ([], false) := by
  rw [Cache.Get_fst] at h ⊢
  cases hl : c.entries.lookup key with
  | none => rfl
  | some e =>
    rw [hl] at h
    by_cases hexp : e.ExpiresAt < now
    · have : e.ExpiresAt < t := lt_of_lt_of_le hexp ht
      simp [this]
    · simp [hexp] at h

/-- C8: for every request whose method is not GET and every cache state,
`ServeHTTP` answers with status 405 (the `http.Error` response "Method not
allowed"), makes no upstream call and no cache lookup or store, and leaves
the cache as it was. -/
theorem non_GET_rejected (p : ProxyHandler) (clock : Clock) (cache : Cache) (r : Request)
    (hm : r.Method ≠ "GET") :
    (p.ServeHTTP clock cache r).response = some (httpError "Method not allowed" 405) ∧
    (httpError "Method not allowed" 405).StatusCode = 405 ∧
    (p.ServeHTTP clock cache r).events = [] ∧
    (p.ServeHTTP clock cache r).cache = cache := by
  have hm2 : r.Method ≠ MethodGet := hm
  unfold ProxyHandler.ServeHTTP
  rw [if_pos hm2]
  exact ⟨rfl, rfl, rfl, rfl⟩

theorem non_GET_rejected_witness :
    (ProxyHandler.ServeHTTP ⟨fun _ => UpstreamResult.response 200 ∅ [1], fun _ => true⟩ ⟨5, 6⟩
        (NewCache.Set 0 "/v1/forecast/days:lookup?" [7] 100)
        ⟨"POST", "/v1/forecast/days:lookup", "", ∅⟩).events = [] :=
  (non_GET_rejected ⟨fun _ => UpstreamResult.response 200 ∅ [1], fun _ => true⟩ ⟨5, 6⟩
    (NewCache.Set 0 "/v1/forecast/days:lookup?" [7] 100)
    ⟨"POST", "/v1/forecast/days:lookup", "", ∅⟩ (by decide)).2.2.1

/-- C4 fails as stated: for a GET request that misses the cache and whose
upstream call answers with the status code 99 and a body, `ServeHTTP` writes
no response (`WriteHeader` panics), so the caller receives neither the
upstream status code nor the body. -/
theorem forwarding_status_99_panics :
    (ProxyHandler.ServeHTTP ⟨fun _ => UpstreamResult.response 99 ∅ [1], fun _ => true⟩ ⟨5, 6⟩
        NewCache ⟨"GET", "/v1/forecast/days:lookup", "", ∅⟩).response = none ∧
    (ProxyHandler.ServeHTTP ⟨fun _ => UpstreamResult.response 99 ∅ [1], fun _ => true⟩ ⟨5, 6⟩
        NewCache ⟨"GET", "/v1/forecast/days:lookup", "", ∅⟩).response.map
          (fun w => (w.StatusCode, w.Body)) ≠ some (99, [1]) := by
  decide

/-- C4 (as amended): for every GET request that misses the cache and reaches
the upstream call: a transport failure gives a 502, an unreadable body a
500, a status other than 200 that lies between 100 and 999 the upstream
status and body; in each of the three cases, whatever the upstream status,
the cache after `ServeHTTP` is the cache before, exactly one upstream call
and no cache store were made, and a `Get` on the request's key at any later
clock value still misses. -/
theorem failed_fetch_never_cached (p : ProxyHandler) (clock : Clock) (cache : Cache)
    (r : Request) (hm : r.Method = "GET")
    (hmiss : (cache.Get clock.atGet (cacheKey r)).1.2 = false)
    (hreq : p.newRequest (targetURL r) = true) :
    (p.httpClient (upstreamRequest r) = UpstreamResult.transportError →
      ∃ w, (p.ServeHTTP clock cache r).response = some w ∧ w.StatusCode = 502) ∧
    (∀ status header, p.httpClient (upstreamRequest r) =
        UpstreamResult.bodyUnreadable status header →
      ∃ w, (p.ServeHTTP clock cache r).response = some w ∧ w.StatusCode = 500) ∧
    (∀ status header body, p.httpClient (upstreamRequest r) =
        UpstreamResult.response status header body → status ≠ 200 →
      100 ≤ status → status ≤ 999 →
      ∃ w, (p.ServeHTTP clock cache r).response = some w ∧ w.StatusCode = status ∧
        w.Body = body) ∧
    ((p.httpClient (upstreamRequest r) = UpstreamResult.transportError ∨
      (∃ status header, p.httpClient (upstreamRequest r) =
        UpstreamResult.bodyUnreadable status header) ∨
      (∃ status header body, p.httpClient (upstreamRequest r) =
        UpstreamResult.response status header body ∧ status ≠ 200)) →
      (p.ServeHTTP clock cache r).cache = cache ∧
      (p.ServeHTTP clock cache r).events =
        [Event.cacheGet (cacheKey r), Event.upstreamCall (upstreamRequest r)] ∧
      ∀ t : Time, clock.atGet ≤ t →
        ((p.ServeHTTP clock cache r).cache.Get t (cacheKey r)).1 = ([], false)) := by
  have hS := ServeHTTP_miss p clock cache r hm hmiss hreq
  refine ⟨?_, ?_, ?_, ?_⟩
  · intro h
    rw [hS, h]
    exact ⟨_, rfl, rfl⟩
  · intro status header h
    rw [hS, h]
    exact ⟨_, rfl, rfl⟩
  · intro status header body h _ hlo hhi
    have hv : validWriteHeaderCode status = true := by
      simp [validWriteHeaderCode, hlo, hhi]
    rw [hS, h]
    simp only [hv, if_true]
    exact ⟨_, rfl, rfl, rfl⟩
  · intro h
    have hc : (p.ServeHTTP clock cache r).cache = cache ∧
        (p.ServeHTTP clock cache r).events =
          [Event.cacheGet (cacheKey r), Event.upstreamCall (upstreamRequest r)] := by
      rcases h with h | ⟨status, header, h⟩ | ⟨status, header, body, h, hne⟩
      · rw [hS, h]
        exact ⟨rfl, rfl⟩
      · rw [hS, h]
        exact ⟨rfl, rfl⟩
      · have hne2 : ¬ status = StatusOK := hne
        rw [hS, h]
        simp only [hne2, if_false]
        exact ⟨trivial, trivial⟩
    refine ⟨hc.1, hc.2, ?_⟩
    intro t ht
    rw [hc.1]
    exact Cache.Get_miss_later cache clock.atGet t (cacheKey r) hmiss ht

theorem failed_fetch_never_cached_witness :
    ∃ w, (ProxyHandler.ServeHTTP ⟨fun _ => UpstreamResult.response 500 ∅ [1], fun _ => true⟩
        ⟨5, 6⟩ NewCache ⟨"GET", "/v1/forecast/days:lookup", "", ∅⟩).response = some w ∧
      w.StatusCode = 500 ∧ w.Body = [1] :=
  (failed_fetch_never_cached ⟨fun _ => UpstreamResult.response 500 ∅ [1], fun _ => true⟩ ⟨5, 6⟩
    NewCache ⟨"GET", "/v1/forecast/days:lookup", "", ∅⟩ (by decide) (by decide)
    (by decide)).2.2.1 500 ∅ [1] rfl (by decide) (by decide) (by decide)

theorem cacheKey_congr (r r2 : Request) (hp : r2.Path = r.Path)
    (hq : r2.RawQuery = r.RawQuery) : cacheKey r2 = cacheKey r := by
  unfold cacheKey upstreamPath
  rw [hp, hq]

theorem upstreamCall_mem_of_miss (p : ProxyHandler) (clock : Clock) (cache : Cache)
    (r : Request) (hm : r.Method = MethodGet)
    (hmiss : (cache.Get clock.atGet (cacheKey r)).1.2 = false)
    (hreq : p.newRequest (targetURL r) = true) :
    Event.upstreamCall (upstreamRequest r) ∈ (p.ServeHTTP clock cache r).events := by
  rw [ServeHTTP_miss p clock cache r hm hmiss hreq]
  cases p.httpClient (upstreamRequest r) with
  | transportError => simp
  | bodyUnreadable status header => simp
  | response status header body =>
    by_cases h : status = StatusOK <;> simp [h]

/-- C5: when a GET request misses the cache and the upstream answers 200 with
body `b`, the body is forwarded and stored under the request's key with
expiry `s + TTL`, `s` being the clock value at the store and `TTL` the value
of `getTTLForEndpoint` at the path's category: 15 minutes for current, 60
for forecast, 5 for alerts, 5 for unknown.  A later GET request with the same
path and raw query, handled on a cache that still holds that entry under the
key, at any clock value `t` with `t ≤ s + TTL`, is answered 200 with body
`b`, `Content-Type: application/json` and `X-Cache: HIT`, with the cache
lookup as its only interaction and the cache unchanged; handled at
`t > s + TTL` it misses and goes upstream. -/
theorem fresh_200_cached_for_ttl (p : ProxyHandler) (clock : Clock) (cache : Cache)
    (r : Request) (header : Header) (b : Bytes) (hm : r.Method = "GET")
    (hmiss : (cache.Get clock.atGet (cacheKey r)).1.2 = false)
    (hreq : p.newRequest (targetURL r) = true)
    (hup : p.httpClient (upstreamRequest r) = UpstreamResult.response 200 header b) :
    (∃ w, (p.ServeHTTP clock cache r).response = some w ∧ w.StatusCode = 200 ∧
      w.Body = b ∧ w.Header.Get "X-Cache" = "MISS") ∧
    (p.ServeHTTP clock cache r).cache.entries.lookup (cacheKey r) =
      some ⟨b, clock.atSet + getTTLForEndpoint (getEndpointType (upstreamPath r))⟩ ∧
    (getTTLForEndpoint "current" = 15 * (60 * 1000000000) ∧
      getTTLForEndpoint "forecast" = 60 * (60 * 1000000000) ∧
      getTTLForEndpoint "alerts" = 5 * (60 * 1000000000) ∧
      getTTLForEndpoint "unknown" = 5 * (60 * 1000000000)) ∧
    (∀ (p2 : ProxyHandler) (clock2 : Clock) (r2 : Request) (cache2 : Cache),
      r2.Method = "GET" → r2.Path = r.Path → r2.RawQuery = r.RawQuery →
      cache2.entries.lookup (cacheKey r) =
        (p.ServeHTTP clock cache r).cache.entries.lookup (cacheKey r) →
      clock2.atGet ≤ clock.atSet + getTTLForEndpoint (getEndpointType (upstreamPath r)) →
      (∃ w, (p2.ServeHTTP clock2 cache2 r2).response = some w ∧ w.StatusCode = 200 ∧
        w.Body = b ∧ w.Header.Get "Content-Type" = "application/json" ∧
        w.Header.Get "X-Cache" = "HIT") ∧
      (p2.ServeHTTP clock2 cache2 r2).events = [Event.cacheGet (cacheKey r)] ∧
      (p2.ServeHTTP clock2 cache2 r2).cache = cache2) ∧
    (∀ (p2 : ProxyHandler) (clock2 : Clock) (r2 : Request) (cache2 : Cache),
      r2.Method = "GET" → r2.Path = r.Path → r2.RawQuery = r.RawQuery →
      cache2.entries.lookup (cacheKey r) =
        (p.ServeHTTP clock cache r).cache.entries.lookup (cacheKey r) →
      clock2.atGet > clock.atSet + getTTLForEndpoint (getEndpointType (upstreamPath r)) →
      (cache2.Get clock2.atGet (cacheKey r2)).1 = ([], false) ∧
      (p2.newRequest (targetURL r2) = true →
        Event.upstreamCall (upstreamRequest r2) ∈ (p2.ServeHTTP clock2 cache2 r2).events)) := by
  have hS := ServeHTTP_miss p clock cache r hm hmiss hreq
  rw [hup] at hS
  have hok : (200 : Nat) = StatusOK := rfl
  have hv : validWriteHeaderCode StatusOK = true := by decide
  simp only [hok, if_true, hv] at hS
  have hcache : (p.ServeHTTP clock cache r).cache =
      cache.Set clock.atSet (cacheKey r) b
        (getTTLForEndpoint (getEndpointType (upstreamPath r))) := by
    rw [hS]
  have hlook : (p.ServeHTTP clock cache r).cache.entries.lookup (cacheKey r) =
      some ⟨b, clock.atSet + getTTLForEndpoint (getEndpointType (upstreamPath r))⟩ := by
    rw [hcache, Cache.lookup_Set_self]
  refine ⟨?_, hlook, ⟨by decide, by decide, by decide, by decide⟩, ?_, ?_⟩
  · rw [hS]
    refine ⟨_, rfl, rfl, rfl, ?_⟩
    simp [Header.Get, Header.Set, Header.index]
  · intro p2 clock2 r2 cache2 hm2 hp hq hsame ht
    have hkey := cacheKey_congr r r2 hp hq
    have hhit : (cache2.Get clock2.atGet (cacheKey r2)).1 = (b, true) := by
      rw [Cache.Get_fst, hkey, hsame, hlook]
      simp [not_lt.mpr ht]
    obtain ⟨h1, h2, h3⟩ := ServeHTTP_hit p2 clock2 _ r2 b hm2 hhit
    have hct : Header.Get ((Header.Set ∅ "Content-Type" "application/json").Set
        "X-Cache" "HIT") "Content-Type" = "application/json" := by decide
    have hxc : Header.Get ((Header.Set ∅ "Content-Type" "application/json").Set
        "X-Cache" "HIT") "X-Cache" = "HIT" := by decide
    rw [h1, h2, h3, hkey]
    exact ⟨⟨_, rfl, rfl, rfl, hct, hxc⟩, rfl, rfl⟩
  · intro p2 clock2 r2 cache2 hm2 hp hq hsame ht
    have hkey := cacheKey_congr r r2 hp hq
    have hmiss2 : (cache2.Get clock2.atGet (cacheKey r2)).1 = ([], false) := by
      rw [Cache.Get_fst, hkey, hsame, hlook]
      have : clock.atSet + getTTLForEndpoint (getEndpointType (upstreamPath r)) <
          clock2.atGet := ht
      simp [this]
    refine ⟨hmiss2, fun hreq2 => ?_⟩
    exact upstreamCall_mem_of_miss p2 clock2 _ r2 hm2 (by rw [hmiss2]) hreq2

theorem fresh_200_cached_for_ttl_witness :
    (ProxyHandler.ServeHTTP ⟨fun _ => UpstreamResult.response 200 ∅ [1], fun _ => true⟩ ⟨5, 6⟩
        NewCache ⟨"GET", "/v1/forecast/days:lookup", "lat=1", ∅⟩).cache.entries.lookup
          (cacheKey ⟨"GET", "/v1/forecast/days:lookup", "lat=1", ∅⟩) =
      some ⟨[1], 6 + getTTLForEndpoint (getEndpointType
        (upstreamPath ⟨"GET", "/v1/forecast/days:lookup", "lat=1", ∅⟩))⟩ :=
  (fresh_200_cached_for_ttl ⟨fun _ => UpstreamResult.response 200 ∅ [1], fun _ => true⟩ ⟨5, 6⟩
    NewCache ⟨"GET", "/v1/forecast/days:lookup", "lat=1", ∅⟩ ∅ [1] (by decide) (by decide)
    (by decide) rfl).2.1

/-! ## Results on `AuthMiddleware` -/

/-- C10: with a non-empty configured key, `AuthMiddleware` passes the request
to the wrapped handler, whose response it returns unchanged, if and only if
the request's `X-API-Key` header equals the configured key; a request with
no or an empty `X-API-Key` gets 401 with the JSON error "Missing X-API-Key
header", one with a non-empty different key 401 with "Invalid API key", and
in both cases the wrapped handler is not called. -/
theorem AuthMiddleware_gate (expectedKey : String) (next : Request → Response) (r : Request)
    (hkey : expectedKey ≠ "") :
    ((AuthMiddleware expectedKey next r).nextCalls ≠ [] ↔
      r.Header.Get "X-API-Key" = expectedKey) ∧
    (r.Header.Get "X-API-Key" = expectedKey →
      AuthMiddleware expectedKey next r = ⟨next r, [r]⟩) ∧
    (r.Header.lookup "X-Api-Key" = none → r.Header.Get "X-API-Key" = "") ∧
    (r.Header.Get "X-API-Key" = "" →
      AuthMiddleware expectedKey next r =
        ⟨{ StatusCode := 401
           Header := Header.Set ∅ "Content-Type" "application/json"
           Body := ErrorResponse.encode ⟨"Missing X-API-Key header"⟩ }, []⟩) ∧
    (r.Header.Get "X-API-Key" ≠ "" → r.Header.Get "X-API-Key" ≠ expectedKey →
      AuthMiddleware expectedKey next r =
        ⟨{ StatusCode := 401
           Header := Header.Set ∅ "Content-Type" "application/json"
           Body := ErrorResponse.encode ⟨"Invalid API key"⟩ }, []⟩) := by
  refine ⟨?_, ?_, ?_, ?_, ?_⟩
  · unfold AuthMiddleware
    simp only [hkey, if_false]
    by_cases h1 : r.Header.Get "X-API-Key" = ""
    · have : r.Header.Get "X-API-Key" ≠ expectedKey := fun h => hkey (h ▸ h1)
      simp [h1, this]
      exact fun h => hkey h.symm
    · by_cases h2 : r.Header.Get "X-API-Key" = expectedKey
      · simp [h1, h2, hkey]
      · simp [h1, h2]
  · intro h
    unfold AuthMiddleware
    simp [hkey, h]
  · intro h
    have hc : CanonicalMIMEHeaderKey "X-API-Key" = "X-Api-Key" := by decide
    unfold Header.Get Header.index
    rw [hc, h]
    rfl
  · intro h
    unfold AuthMiddleware
    simp only [hkey, if_false, h, if_true]
    rfl
  · intro h1 h2
    unfold AuthMiddleware
    simp only [hkey, if_false, h1, ne_eq, h2, not_false_eq_true, if_true]
    rfl

theorem AuthMiddleware_gate_witness :
    AuthMiddleware "test-secret-key" (fun _ => ⟨200, ∅, [79, 75]⟩)
        ⟨"GET", "/test", "", Header.Set ∅ "X-API-Key" "test-secret-key"⟩ =
      ⟨⟨200, ∅, [79, 75]⟩,
        [⟨"GET", "/test", "", Header.Set ∅ "X-API-Key" "test-secret-key"⟩]⟩ :=
  (AuthMiddleware_gate "test-secret-key" (fun _ => ⟨200, ∅, [79, 75]⟩)
    ⟨"GET", "/test", "", Header.Set ∅ "X-API-Key" "test-secret-key"⟩ (by decide)).2.1
    (by decide)

/-! ## Results on the header copy -/

theorem Header.index_Add (h : Header) (key value k : String) :
    (h.Add key value).index k =
      if CanonicalMIMEHeaderKey key = k then h.index k ++ [value] else h.index k := by
  unfold Header.Add
  by_cases hk : CanonicalMIMEHeaderKey key = k
  · subst hk
    rw [if_pos rfl]
    simp [Header.index, AList.lookup_insert]
  · rw [if_neg hk]
    have hne : k ≠ CanonicalMIMEHeaderKey key := fun h => hk h.symm
    simp only [Header.index, AList.lookup_insert_ne hne]

theorem index_foldl_Add (key k : String) :
    ∀ (values : List String) (acc : Header),
      (values.foldl (fun a value => a.Add key value) acc).index k =
        if CanonicalMIMEHeaderKey key = k then acc.index k ++ values else acc.index k := by
  intro values
  induction values with
  | nil => intro acc; simp
  | cons v vs ih =>
    intro acc
    rw [List.foldl_cons, ih, Header.index_Add]
    by_cases hk : CanonicalMIMEHeaderKey key = k
    · simp [hk]
    · simp [hk]

theorem index_copyInto (skip : List String) (k : String) :
    ∀ (order : List ((_ : String) × List String)) (dst : Header),
      (copyInto skip dst order).index k = dst.index k ++ gathered skip k order := by
  intro order
  induction order with
  | nil => intro dst; simp [copyInto, gathered]
  | cons kv rest ih =>
    intro dst
    have hstep : copyInto skip dst (kv :: rest) =
        copyInto skip (if kv.1 ∈ skip then dst
          else kv.2.foldl (fun a value => a.Add kv.1 value) dst) rest := by
      simp [copyInto]
    rw [hstep, ih]
    by_cases hs : kv.1 ∈ skip
    · simp [hs, gathered, List.filter_cons]
    · by_cases hk : CanonicalMIMEHeaderKey kv.1 = k
      · simp [hs, hk, gathered, List.filter_cons, index_foldl_Add]
      · simp [hs, hk, gathered, List.filter_cons, index_foldl_Add]

theorem flatMap_filter_key (k : String) :
    ∀ (l : List ((_ : String) × List String)), l.NodupKeys →
      (l.filter (fun kv => decide (kv.1 = k))).flatMap (fun kv => kv.2) =
        (l.dlookup k).getD [] := by
  intro l
  induction l with
  | nil => intro _; simp
  | cons kv rest ih =>
    intro hnd
    obtain ⟨a, v⟩ := kv
    rw [List.nodupKeys_cons] at hnd
    have hrest := ih hnd.2
    by_cases hk : a = k
    · subst hk
      have hnone : rest.dlookup a = none := List.dlookup_eq_none.mpr hnd.1
      rw [hnone] at hrest
      simp [List.filter_cons, hrest, List.dlookup_cons_eq]
    · have hne : k ≠ a := fun h => hk h.symm
      rw [List.dlookup_cons_ne _ _ hne]
      simp [List.filter_cons, hk, hrest]

theorem gathered_canonical (skip : List String) (k : String) (h : Header)
    (order : List ((_ : String) × List String)) (hperm : order.Perm h.entries)
    (hcanon : ∀ key ∈ h.keys, CanonicalMIMEHeaderKey key = key) :
    gathered skip k order = if k ∈ skip then [] else h.index k := by
  have hmem : ∀ kv ∈ order, CanonicalMIMEHeaderKey kv.1 = kv.1 := by
    intro kv hkv
    exact hcanon kv.1 (List.mem_keys_of_mem (hperm.subset hkv))
  have hnd : order.NodupKeys := (List.perm_nodupKeys hperm).mpr h.nodupKeys
  unfold gathered
  by_cases hs : k ∈ skip
  · rw [if_pos hs]
    have : order.filter (fun kv => decide (kv.1 ∉ skip) &&
        decide (CanonicalMIMEHeaderKey kv.1 = k)) = [] := by
      rw [List.filter_eq_nil_iff]
      intro kv hkv
      rw [hmem kv hkv]
      by_cases hk : kv.1 = k
      · simp [hk, hs]
      · simp [hk]
    rw [this]
    rfl
  · rw [if_neg hs]
    have : order.filter (fun kv => decide (kv.1 ∉ skip) &&
        decide (CanonicalMIMEHeaderKey kv.1 = k)) =
        order.filter (fun kv => decide (kv.1 = k)) := by
      apply List.filter_congr
      intro kv hkv
      rw [hmem kv hkv]
      by_cases hk : kv.1 = k
      · simp [hk, hs]
      · simp [hk]
    rw [this, flatMap_filter_key k order hnd]
    unfold Header.index AList.lookup
    rw [List.perm_dlookup k hnd h.nodupKeys hperm]

theorem index_copyHeaders (h : Header) (order : List ((_ : String) × List String))
    (hperm : order.Perm h.entries)
    (hcanon : ∀ key ∈ h.keys, CanonicalMIMEHeaderKey key = key) (k : String) :
    (copyHeaders order).index k =
      if k = "X-Api-Key" ∨ k = "Authorization" then [] else h.index k := by
  unfold copyHeaders
  rw [index_copyInto, gathered_canonical _ k h order hperm hcanon]
  simp [Header.index]

theorem index_of_not_canonical (h : Header)
    (hcanon : ∀ key ∈ h.keys, CanonicalMIMEHeaderKey key = key) (name : String)
    (hn : CanonicalMIMEHeaderKey name ≠ name) : h.index name = [] := by
  have : name ∉ h := fun hmem => hn (hcanon name (AList.mem_keys.mp hmem))
  unfold Header.index
  rw [AList.lookup_eq_none.mpr this]
  rfl

/-- C6: for every inbound request header map, its keys being in canonical form
as those of every `http.Header` of a request the server hands to a handler,
and whatever the order in which the header entries are visited, the
upstream header map holds under every key other than
`X-Api-Key` and `Authorization` the inbound values of that key, all and in
order, and holds no value under any name that is one of those two up to
canonical form (letter case); so a second such request with the same path
and query whose headers agree with the first on every other key gives an
upstream request with the same method, the same URL and headers that agree
on every key. -/
theorem upstream_headers_drop_credentials (r : Request)
    (order : List ((_ : String) × List String)) (hperm : order.Perm r.Header.entries)
    (hcanon : ∀ key ∈ r.Header.keys, CanonicalMIMEHeaderKey key = key) :
    (upstreamRequest r).Header = copyHeaders r.Header.entries ∧
    (∀ k : String, k ≠ "X-Api-Key" → k ≠ "Authorization" →
      (copyHeaders order).index k = r.Header.index k) ∧
    (∀ name : String, CanonicalMIMEHeaderKey name = "X-Api-Key" ∨
        CanonicalMIMEHeaderKey name = "Authorization" →
      (copyHeaders order).index name = [] ∧ (copyHeaders order).Values name = [] ∧
      (copyHeaders order).Get name = "") ∧
    (∀ (r2 : Request) (order2 : List ((_ : String) × List String)),
      order2.Perm r2.Header.entries →
      (∀ key ∈ r2.Header.keys, CanonicalMIMEHeaderKey key = key) →
      r2.Path = r.Path → r2.RawQuery = r.RawQuery →
      (∀ k : String, k ≠ "X-Api-Key" → k ≠ "Authorization" →
        r2.Header.index k = r.Header.index k) →
      (upstreamRequest r2).Method = (upstreamRequest r).Method ∧
      (upstreamRequest r2).URL = (upstreamRequest r).URL ∧
      ∀ k : String, (copyHeaders order2).index k = (copyHeaders order).index k) := by
  have hidx := index_copyHeaders r.Header order hperm hcanon
  refine ⟨rfl, ?_, ?_, ?_⟩
  · intro k h1 h2
    rw [hidx, if_neg (by simp [h1, h2])]
  · intro name hname
    have hv : (copyHeaders order).index (CanonicalMIMEHeaderKey name) = [] := by
      rw [hidx, if_pos hname]
    have hi : (copyHeaders order).index name = [] := by
      rw [hidx]
      by_cases hn : name = "X-Api-Key" ∨ name = "Authorization"
      · rw [if_pos hn]
      · rw [if_neg hn]
        apply index_of_not_canonical r.Header hcanon
        intro heq
        rw [heq] at hname
        exact hn hname
    refine ⟨hi, hv, ?_⟩
    unfold Header.Get
    rw [hv]
    rfl
  · intro r2 order2 hperm2 hcanon2 hp hq hagree
    refine ⟨rfl, ?_, ?_⟩
    · unfold upstreamRequest targetURL upstreamPath
      simp only [hp, hq]
    · intro k
      rw [hidx, index_copyHeaders r2.Header order2 hperm2 hcanon2]
      by_cases hk : k = "X-Api-Key" ∨ k = "Authorization"
      · rw [if_pos hk, if_pos hk]
      · rw [if_neg hk, if_neg hk]
        exact hagree k (fun h => hk (Or.inl h)) (fun h => hk (Or.inr h))

theorem upstream_headers_drop_credentials_witness :
    (copyHeaders ((Header.Set ∅ "X-API-Key" "secret").Set "Accept" "text/json").entries).Get
        "x-api-key" = "" :=
  ((upstream_headers_drop_credentials
    ⟨"GET", "/v1/forecast/days:lookup", "",
      (Header.Set ∅ "X-API-Key" "secret").Set "Accept" "text/json"⟩
    _ (List.Perm.refl _) (by decide)).2.2.1 "x-api-key" (Or.inl (by decide))).2.2

end WeatherProxy
